import Mathlib

/-!
# restapi/admin_trace.go

A shallow embedding of the trace relay of the console server: the record
transform `shortTrace` and the relay loop `startTraceInfo`.

Go values are modelled as follows.

* A Go `string` is a Lean `String`; the only byte the code inspects is `':'`,
  which is a single byte in UTF-8 and never part of a longer encoding.
* A Go `int` is an `Int`: the code copies integers and does no arithmetic.
* A Go `error` is an `Option Error`, `none` standing for `nil`.
* `time.Duration` is an `Int` (nanoseconds); `time.Time` is a type parameter.
* A Go map `map[string][]string` is a function `String → Option (List String)`,
  `none` standing for an absent key.
-/

namespace restapi

/-! ## Data model -/

/-- A non-nil Go `error` value, identified by its message. -/
abbrev Error := String

/-- The serialized wire message handed to the websocket connection. -/
abbrev Bytes := String

/-- Go `callStats`, lines 44-49. -/
structure callStats where
  Rx : Int
  Tx : Int
  Duration : String
  Ttfb : String
deriving DecidableEq, Repr

/-- Go `shortTraceMsg`, lines 32-42. -/
structure shortTraceMsg where
  Host : String
  Time : String
  Client : String
  CallStats : callStats
  FuncName : String
  Path : String
  Query : String
  StatusCode : Int
  StatusMsg : String
deriving DecidableEq, Repr

/-- The zero value `shortTraceMsg{}` of line 92. -/
def shortTraceMsg.zero : shortTraceMsg :=
  { Host := "", Time := "", Client := "",
    CallStats := { Rx := 0, Tx := 0, Duration := "", Ttfb := "" },
    FuncName := "", Path := "", Query := "", StatusCode := 0, StatusMsg := "" }

/-- The fields of the library type `trace.RequestInfo` that the code reads. -/
structure RequestInfo (τ : Type) where
  Time : τ
  Path : String
  RawQuery : String
  Headers : String → Option (List String)
  Client : String

/-- The field of the library type `trace.ResponseInfo` that the code reads. -/
structure ResponseInfo where
  StatusCode : Int

/-- The library type `trace.CallStats`: byte counts, latency and time to first
byte, the last two of type `time.Duration`. -/
structure CallStats where
  InputBytes : Int
  OutputBytes : Int
  Latency : Int
  TimeToFirstByte : Int

/-- The fields of the library type `trace.Info` that the code reads. -/
structure TraceInfo (τ : Type) where
  FuncName : String
  ReqInfo : RequestInfo τ
  RespInfo : ResponseInfo
  CallStats : CallStats

/-- The library type `madmin.ServiceTraceInfo`: a trace and an optional error. -/
structure ServiceTraceInfo (τ : Type) where
  Trace : TraceInfo τ
  Err : Option Error

/-- The standard-library renderers the code calls and whose bodies lie outside
the repository: `time.Time.String`, `time.Duration.String`, `json.Marshal`. -/
structure GoLib (τ : Type) where
  timeString : τ → String
  durationString : Int → String
  jsonMarshal : shortTraceMsg → Except Error Bytes

/-! ## Library functions with a fixed meaning -/

/-- The table `statusText` of the Go standard library (`net/http`), from status
code to reason phrase, which `http.StatusText` looks the code up in. -/
def statusText : List (Int × String) :=
  [ (100, "Continue"), (101, "Switching Protocols"), (102, "Processing"),
    (103, "Early Hints"),
    (200, "OK"), (201, "Created"), (202, "Accepted"),
    (203, "Non-Authoritative Information"), (204, "No Content"),
    (205, "Reset Content"), (206, "Partial Content"), (207, "Multi-Status"),
    (208, "Already Reported"), (226, "IM Used"),
    (300, "Multiple Choices"), (301, "Moved Permanently"), (302, "Found"),
    (303, "See Other"), (304, "Not Modified"), (305, "Use Proxy"),
    (307, "Temporary Redirect"), (308, "Permanent Redirect"),
    (400, "Bad Request"), (401, "Unauthorized"), (402, "Payment Required"),
    (403, "Forbidden"), (404, "Not Found"), (405, "Method Not Allowed"),
    (406, "Not Acceptable"), (407, "Proxy Authentication Required"),
    (408, "Request Timeout"), (409, "Conflict"), (410, "Gone"),
    (411, "Length Required"), (412, "Precondition Failed"),
    (413, "Request Entity Too Large"), (414, "Request URI Too Long"),
    (415, "Unsupported Media Type"), (416, "Requested Range Not Satisfiable"),
    (417, "Expectation Failed"), (418, "I\x27m a teapot"),
    (421, "Misdirected Request"), (422, "Unprocessable Entity"),
    (423, "Locked"), (424, "Failed Dependency"), (425, "Too Early"),
    (426, "Upgrade Required"), (428, "Precondition Required"),
    (429, "Too Many Requests"), (431, "Request Header Fields Too Large"),
    (451, "Unavailable For Legal Reasons"),
    (500, "Internal Server Error"), (501, "Not Implemented"),
    (502, "Bad Gateway"), (503, "Service Unavailable"),
    (504, "Gateway Timeout"), (505, "HTTP Version Not Supported"),
    (506, "Variant Also Negotiates"), (507, "Insufficient Storage"),
    (508, "Loop Detected"), (510, "Not Extended"),
    (511, "Network Authentication Required") ]

/-- Go `http.StatusText`: the table entry of the code, the empty string for a
code the table does not list. -/
def StatusText (code : Int) : String :=
  (statusText.lookup code).getD ""

/-- Go `strings.Join`: no element gives the empty string, one element is
returned as it is, otherwise the elements are appended to the first one, each
preceded by the separator. -/
def Join : List String → String → String
  | [], _ => ""
  | [a], _ => a
  | a :: rest, sep => rest.foldl (fun b s => b ++ sep ++ s) a

/-- Go `strings.IndexByte`: the position of the first occurrence of `c`, `none`
standing for `-1`. -/
def IndexByte : List Char → Char → Option Nat
  | [], _ => none
  | x :: xs, c => if x = c then some 0 else (IndexByte xs c).map (· + 1)

/-- The loop of Go `genSplit`: at most `n` cuts, each at the next separator;
what is left after the last cut is the final piece. -/
def genSplit : Nat → List Char → Char → List (List Char)
  | 0, s, _ => [s]
  | n + 1, s, sep =>
    match IndexByte s sep with
    | none => [s]
    | some m => s.take m :: genSplit n (s.drop (m + 1)) sep

/-- Go `strings.Split` for a one-byte separator: `genSplit` asked for
`Count (s, sep) + 1` pieces, that is, `Count (s, sep)` cuts. -/
def Split (s : String) (sep : Char) : List String :=
  (genSplit (s.data.count sep) s.data sep).map String.mk

/-! ## The record transform -/

/-- Go `shortTrace`, lines 90-110. The result is `none` where the Go code would
fail at run time on the index `cSlice[0]`. The pointer argument is the address
of the loop variable of the only caller, hence never nil. -/
def shortTrace {τ : Type} (lib : GoLib τ) (info : ServiceTraceInfo τ) :
    Option shortTraceMsg :=
  let t := info.Trace
  let s := shortTraceMsg.zero
  let s := { s with Time := lib.timeString t.ReqInfo.Time }
  let s := { s with Path := t.ReqInfo.Path }
  let s := { s with Query := t.ReqInfo.RawQuery }
  let s := { s with FuncName := t.FuncName }
  let s := { s with StatusCode := t.RespInfo.StatusCode }
  let s := { s with StatusMsg := StatusText t.RespInfo.StatusCode }
  let s := { s with CallStats := { s.CallStats with Duration := lib.durationString t.CallStats.Latency } }
  let s := { s with CallStats := { s.CallStats with Rx := t.CallStats.InputBytes } }
  let s := { s with CallStats := { s.CallStats with Tx := t.CallStats.OutputBytes } }
  let s :=
    match t.ReqInfo.Headers "Host" with
    | some host => { s with Host := Join host "" }
    | none => s
  let cSlice := Split t.ReqInfo.Client ':'
  match cSlice[0]? with
  | some c => some { s with Client := c }
  | none => none

/-! ## The relay loop -/

/-- Go `websocket.TextMessage`. -/
def TextMessage : Int := 1

/-- One call of `conn.writeMessage`: the message type and the payload. -/
structure Message where
  messageType : Int
  data : Bytes
deriving DecidableEq, Repr

/-- The interface `WSConn`, of which the loop uses `writeMessage` only: the
error a write reports, given the writes made on the connection before it and
the message written. -/
abbrev WSConn := List Message → Message → Option Error

/-- The interface `MinioAdmin`, of which the loop uses `serviceTrace` only: the
items the returned channel delivers, in order, before it is closed. -/
structure MinioAdmin (τ : Type) where
  serviceTrace : Bool → Bool → List (ServiceTraceInfo τ)

/-- What one evaluation of the `select` of line 60 finds: whether `ctx.Done()`
can be received from, whether `traceCh` can be received from (an item is there
or the channel is closed), and the case the Go run time picks when both can
proceed (it picks one of them by a uniform pseudo-random choice). -/
structure Select where
  doneReady : Bool
  srcReady : Bool
  pickDone : Bool
deriving DecidableEq, Repr

/-- The two cases of the `select` of line 60. -/
inductive Case where
  | done
  | recv
deriving DecidableEq, Repr

/-- The case a `select` proceeds with; `none` when neither can proceed and the
statement blocks. -/
def Select.choose (v : Select) : Option Case :=
  match v.doneReady, v.srcReady with
  | true, true => some (if v.pickDone then Case.done else Case.recv)
  | true, false => some Case.done
  | false, true => some Case.recv
  | false, false => none

/-- How a run of the loop stands: still in the loop when the observed schedule
ends, returned with an error or `nil`, or stopped by a run-time failure. -/
inductive Outcome where
  | running
  | returned (err : Option Error)
  | panicked
deriving DecidableEq, Repr

/-- The state the loop acts on: the items not yet received from `traceCh`, the
messages passed to `conn.writeMessage` so far, and the lines logged. -/
structure Relay (τ : Type) where
  src : List (ServiceTraceInfo τ)
  writes : List Message
  logs : List String

/-- A run of the loop: its outcome and the state it leaves. -/
structure Result (τ : Type) where
  outcome : Outcome
  state : Relay τ

/-- The `for` loop of Go `startTraceInfo`, lines 59-85, one `Select` for each
evaluation of the `select` statement. A `select` that blocks is evaluated again
with the next entry of the schedule. -/
def relayLoop {τ : Type} (lib : GoLib τ) (conn : WSConn) :
    List Select → Relay τ → Result τ
  | [], st => ⟨Outcome.running, st⟩
  | v :: vs, st =>
    match v.choose with
    | none => relayLoop lib conn vs st
    | some Case.done => ⟨Outcome.returned none, st⟩
    | some Case.recv =>
      match st.src with
      | [] => ⟨Outcome.returned none, st⟩
      | traceInfo :: rest =>
        let st := { st with src := rest }
        match traceInfo.Err with
        | some e =>
          ⟨Outcome.returned (some e),
            { st with logs := st.logs ++ ["error on serviceTrace: " ++ e] }⟩
        | none =>
          match shortTrace lib traceInfo with
          | none => ⟨Outcome.panicked, st⟩
          | some msg =>
            match lib.jsonMarshal msg with
            | Except.error err =>
              ⟨Outcome.returned (some err),
                { st with logs := st.logs ++ ["error on json.Marshal: " ++ err] }⟩
            | Except.ok traceInfoBytes =>
              let m : Message := ⟨TextMessage, traceInfoBytes⟩
              let err := conn st.writes m
              let st := { st with writes := st.writes ++ [m] }
              match err with
              | some e =>
                ⟨Outcome.returned (some e),
                  { st with logs := st.logs ++ ["error writeMessage: " ++ e] }⟩
              | none => relayLoop lib conn vs st

/-- Go `startTraceInfo`, lines 52-86: the trace of all traffic is requested
from the client and relayed until the loop ends. The context `ctx` is seen
through the schedule of `select` evaluations. -/
def startTraceInfo {τ : Type} (lib : GoLib τ) (ctx : List Select) (conn : WSConn)
    (client : MinioAdmin τ) : Result τ :=
  let allTraffic := true
  let errOnly := false
  let traceCh := client.serviceTrace allTraffic errOnly
  relayLoop lib conn ctx { src := traceCh, writes := [], logs := [] }

/-! ## Sample inputs -/

/-- Stand-ins for the library renderers, used to evaluate the model at concrete
inputs. -/
def sampleLib : GoLib Nat :=
  { timeString := fun _ => "t"
    durationString := fun _ => "d"
    jsonMarshal := fun m => Except.ok (m.Client ++ m.Path) }

/-- A trace with the given headers, client address, status code and path. -/
def sampleTrace (headers : String → Option (List String)) (client : String)
    (code : Int) (path : String) : ServiceTraceInfo Nat :=
  { Trace :=
      { FuncName := "s3.GetObject"
        ReqInfo := { Time := 0, Path := path, RawQuery := "", Headers := headers,
                     Client := client }
        RespInfo := { StatusCode := code }
        CallStats := { InputBytes := 10, OutputBytes := 20, Latency := 3000000,
                       TimeToFirstByte := 1500000 } }
    Err := none }

/-- A header map with the single key `Host`. -/
def hostHeader (vs : List String) : String → Option (List String) :=
  fun k => if k = "Host" then some vs else none

/-- A header map with no key. -/
def noHeader : String → Option (List String) :=
  fun _ => none

/-- A first sample event, from the client "10.0.0.5:54321". -/
def ev0 : ServiceTraceInfo Nat := sampleTrace noHeader "10.0.0.5:54321" 200 "/a"

/-- A second sample event, from the client "10.0.0.6:1". -/
def ev1 : ServiceTraceInfo Nat := sampleTrace (hostHeader ["h"]) "10.0.0.6:1" 404 "/b"

/-- An item that bears the error "connection lost". -/
def evErr : ServiceTraceInfo Nat := { ev1 with Err := some "connection lost" }

/-- A client whose trace channel delivers the given items and is then closed. -/
def sampleClient (items : List (ServiceTraceInfo Nat)) : MinioAdmin Nat :=
  { serviceTrace := fun _ _ => items }

/-- A connection on which every write succeeds. -/
def okConn : WSConn := fun _ _ => none

/-- A connection on which the write number `i`, counted from 0, and the writes
after it fail. -/
def brokenConn (i : Nat) : WSConn :=
  fun before _ => if i ≤ before.length then some "broken pipe" else none

/-- What `sampleLib` serializes the record of an event to. -/
def sampleWire (e : ServiceTraceInfo Nat) : Bytes :=
  String.mk (e.Trace.ReqInfo.Client.data.takeWhile (fun x => x != ':')) ++ e.Trace.ReqInfo.Path

/-- A `select` at which only the source is ready. -/
def recvOnly : Select := { doneReady := false, srcReady := true, pickDone := false }

/-- A `select` at which only cancellation is ready. -/
def doneOnly : Select := { doneReady := true, srcReady := false, pickDone := false }

/-- A `select` at which both are ready and the run time picks cancellation. -/
def bothPickDone : Select := { doneReady := true, srcReady := true, pickDone := true }

/-- A `select` at which both are ready and the run time picks the receive. -/
def bothPickRecv : Select := { doneReady := true, srcReady := true, pickDone := false }

/-- A `select` at which nothing is ready: the loop waits. -/
def idle : Select := { doneReady := false, srcReady := false, pickDone := false }

/-! ## Lemmas on the library functions -/

theorem Join_empty_sep (vs : List String) : Join vs "" = String.join vs := by
  have h : ∀ (l : List String) (a : String),
      l.foldl (fun b s => b ++ "" ++ s) a = l.foldl (fun b s => b ++ s) a := by
    intro l
    induction l with
    | nil => intro a; rfl
    | cons x xs ih => intro a; simp only [List.foldl_cons, String.append_empty, ih]
  match vs with
  | [] => rfl
  | [a] => simp [Join, String.join]
  | a :: b :: rest =>
    simp only [Join, String.join, List.foldl_cons, String.append_empty, String.empty_append, h]

theorem IndexByte_none {s : List Char} {c : Char} (h : IndexByte s c = none) :
    s.takeWhile (fun x => x != c) = s := by
  induction s with
  | nil => rfl
  | cons x xs ih =>
    unfold IndexByte at h
    by_cases hx : x = c
    · simp [hx] at h
    · simp only [hx, if_false, Option.map_eq_none'] at h
      simp [List.takeWhile_cons, hx, ih h]

theorem IndexByte_some {s : List Char} {c : Char} {m : Nat} (h : IndexByte s c = some m) :
    s.take m = s.takeWhile (fun x => x != c) := by
  induction s generalizing m with
  | nil => simp [IndexByte] at h
  | cons x xs ih =>
    unfold IndexByte at h
    by_cases hx : x = c
    · simp only [hx, if_true, Option.some.injEq] at h
      subst h
      simp [List.takeWhile_cons, hx]
    · simp only [hx, if_false, Option.map_eq_some'] at h
      obtain ⟨k, hk, rfl⟩ := h
      simp [List.takeWhile_cons, hx, ih hk]

theorem takeWhile_of_count_eq_zero {s : List Char} {c : Char} (h : s.count c = 0) :
    s.takeWhile (fun x => x != c) = s := by
  rw [List.takeWhile_eq_self_iff]
  intro x hx
  have hc : c ∉ s := List.count_eq_zero.mp h
  simp only [bne_iff_ne, ne_eq]
  rintro rfl
  exact hc hx

theorem genSplit_head (n : Nat) (s : List Char) (c : Char) (h : n = 0 → s.count c = 0) :
    ∃ rest, genSplit n s c = s.takeWhile (fun x => x != c) :: rest := by
  cases n with
  | zero => exact ⟨[], by simp [genSplit, takeWhile_of_count_eq_zero (h rfl)]⟩
  | succ k =>
    unfold genSplit
    cases hi : IndexByte s c with
    | none => exact ⟨[], by simp [IndexByte_none hi]⟩
    | some m => exact ⟨genSplit k (s.drop (m + 1)) c, by simp [IndexByte_some hi]⟩

theorem Split_head (s : String) (c : Char) :
    ∃ rest, Split s c = String.mk (s.data.takeWhile (fun x => x != c)) :: rest := by
  obtain ⟨rest, h⟩ := genSplit_head (s.data.count c) s.data c (fun h => h)
  exact ⟨rest.map String.mk, by simp [Split, h]⟩

/-- The record `shortTrace` builds, field by field. -/
theorem shortTrace_eq {τ : Type} (lib : GoLib τ) (info : ServiceTraceInfo τ) :
    shortTrace lib info = some
      { Host := match info.Trace.ReqInfo.Headers "Host" with
                | some host => Join host ""
                | none => ""
        Time := lib.timeString info.Trace.ReqInfo.Time
        Client := String.mk (info.Trace.ReqInfo.Client.data.takeWhile (fun x => x != ':'))
        CallStats :=
          { Rx := info.Trace.CallStats.InputBytes
            Tx := info.Trace.CallStats.OutputBytes
            Duration := lib.durationString info.Trace.CallStats.Latency
            Ttfb := "" }
        FuncName := info.Trace.FuncName
        Path := info.Trace.ReqInfo.Path
        Query := info.Trace.ReqInfo.RawQuery
        StatusCode := info.Trace.RespInfo.StatusCode
        StatusMsg := StatusText info.Trace.RespInfo.StatusCode } := by
  obtain ⟨rest, h⟩ := Split_head info.Trace.ReqInfo.Client ':'
  unfold shortTrace
  simp only [h, List.getElem?_cons_zero, shortTraceMsg.zero]
  cases info.Trace.ReqInfo.Headers "Host" <;> rfl

theorem takeWhile_append_sep (h p : List Char) (c : Char) (hc : c ∉ h) :
    (h ++ c :: p).takeWhile (fun x => x != c) = h := by
  induction h with
  | nil => simp [List.takeWhile_cons]
  | cons x xs ih =>
    have hx : x ≠ c := fun e => hc (by simp [e])
    have hxs : c ∉ xs := fun e => hc (by simp [e])
    simp [List.takeWhile_cons, hx, ih hxs]

theorem prefix_length_le_takeWhile (c : Char) (p l : List Char) (hp : p <+: l) (hc : c ∉ p) :
    p.length ≤ (l.takeWhile (fun x => x != c)).length := by
  induction p generalizing l with
  | nil => simp
  | cons x xs ih =>
    obtain ⟨t, rfl⟩ := hp
    have hx : x ≠ c := fun e => hc (by simp [e])
    have hxs : c ∉ xs := fun e => hc (by simp [e])
    have := ih (xs ++ t) ⟨t, rfl⟩ hxs
    simp [List.takeWhile_cons, hx]
    exact this

theorem sep_not_mem_takeWhile (c : Char) (l : List Char) :
    c ∉ l.takeWhile (fun x => x != c) := by
  intro h
  have := List.mem_takeWhile_imp h
  simp at this

/-! ## The record transform: claims -/

/-- C6: the Host field of the record `shortTrace` returns is the concatenation,
in order and with no separator, of the values stored under the header key
"Host" when the key is present, and the empty string when the key is absent. -/
theorem shortTrace_host {τ : Type} (lib : GoLib τ) (info : ServiceTraceInfo τ) :
    ∃ s, shortTrace lib info = some s ∧
      (∀ vs, info.Trace.ReqInfo.Headers "Host" = some vs → s.Host = String.join vs) ∧
      (info.Trace.ReqInfo.Headers "Host" = none → s.Host = "") := by
  refine ⟨_, shortTrace_eq lib info, ?_, ?_⟩
  · intro vs h
    simp only [h, Join_empty_sep]
  · intro h
    simp only [h]

/-- C6 at concrete inputs: the values "a", "b" give "ab", a present key with no
value gives the empty string, and so does an absent key. -/
theorem shortTrace_host_witness :
    (shortTrace sampleLib (sampleTrace (hostHeader ["a", "b"]) "10.0.0.5:54321" 200 "/b")).map
        (fun s => s.Host) = some "ab" ∧
    (shortTrace sampleLib (sampleTrace (hostHeader []) "10.0.0.5:54321" 200 "/b")).map
        (fun s => s.Host) = some "" ∧
    (shortTrace sampleLib (sampleTrace noHeader "10.0.0.5:54321" 200 "/b")).map
        (fun s => s.Host) = some "" := by
  refine ⟨?_, ?_, ?_⟩
  · obtain ⟨s, hs, h1, _⟩ :=
      shortTrace_host sampleLib (sampleTrace (hostHeader ["a", "b"]) "10.0.0.5:54321" 200 "/b")
    rw [hs, Option.map_some', h1 ["a", "b"] rfl]
    rfl
  · obtain ⟨s, hs, h1, _⟩ :=
      shortTrace_host sampleLib (sampleTrace (hostHeader []) "10.0.0.5:54321" 200 "/b")
    rw [hs, Option.map_some', h1 [] rfl]
    rfl
  · obtain ⟨s, hs, _, h2⟩ :=
      shortTrace_host sampleLib (sampleTrace noHeader "10.0.0.5:54321" 200 "/b")
    rw [hs, Option.map_some', h2 rfl]

/-- C7: the Client field of the record `shortTrace` returns is the longest prefix
of the raw client address that contains no colon: the address itself when it has
no colon, and `h` when the address is `h`, a colon and anything, `h` without a
colon. -/
theorem shortTrace_client {τ : Type} (lib : GoLib τ) (info : ServiceTraceInfo τ) :
    ∃ s, shortTrace lib info = some s ∧
      s.Client.data <+: info.Trace.ReqInfo.Client.data ∧
      ':' ∉ s.Client.data ∧
      (∀ p : List Char, p <+: info.Trace.ReqInfo.Client.data → ':' ∉ p →
        p.length ≤ s.Client.data.length) ∧
      (':' ∉ info.Trace.ReqInfo.Client.data → s.Client = info.Trace.ReqInfo.Client) ∧
      (∀ h p : String, info.Trace.ReqInfo.Client = h ++ ":" ++ p → ':' ∉ h.data →
        s.Client = h) := by
  refine ⟨_, shortTrace_eq lib info, ?_, ?_, ?_, ?_, ?_⟩
  · exact List.takeWhile_prefix _
  · exact sep_not_mem_takeWhile ':' _
  · intro p hp hc
    exact prefix_length_le_takeWhile ':' p _ hp hc
  · intro hc
    show String.mk _ = _
    rw [takeWhile_of_count_eq_zero (List.count_eq_zero.mpr hc)]
  · intro h p hcl hc
    show String.mk _ = _
    have hd : info.Trace.ReqInfo.Client.data = h.data ++ ':' :: p.data := by
      rw [hcl]
      simp [String.data_append]
    rw [hd, takeWhile_append_sep h.data p.data ':' hc]

/-- C7 at concrete inputs: "10.0.0.5:54321" gives "10.0.0.5" and "10.0.0.5" is
returned unchanged. -/
theorem shortTrace_client_witness :
    (shortTrace sampleLib (sampleTrace noHeader "10.0.0.5:54321" 200 "/b")).map
        (fun s => s.Client) = some "10.0.0.5" ∧
    (shortTrace sampleLib (sampleTrace noHeader "10.0.0.5" 200 "/b")).map
        (fun s => s.Client) = some "10.0.0.5" := by
  refine ⟨?_, ?_⟩
  · obtain ⟨s, hs, _, _, _, _, h⟩ :=
      shortTrace_client sampleLib (sampleTrace noHeader "10.0.0.5:54321" 200 "/b")
    rw [hs, Option.map_some', h "10.0.0.5" "54321" (by decide) (by decide)]
  · obtain ⟨s, hs, _, _, _, h, _⟩ :=
      shortTrace_client sampleLib (sampleTrace noHeader "10.0.0.5" 200 "/b")
    rw [hs, Option.map_some', h (by decide)]
    rfl

/-- C8: the code never assigns `s.CallStats.Ttfb`: whatever the raw time to
first byte and however the library renders durations, the timeToFirstByte
string of the record `shortTrace` returns is the empty string of the zero
value. -/
theorem shortTrace_ttfb_empty {τ : Type} (lib : GoLib τ) (info : ServiceTraceInfo τ) :
    ∃ s, shortTrace lib info = some s ∧ s.CallStats.Ttfb = "" ∧
      s.CallStats.Duration = lib.durationString info.Trace.CallStats.Latency :=
  ⟨_, shortTrace_eq lib info, rfl, rfl⟩

/-- C8 at a concrete input: a raw time to first byte of 1500000 ns, which the
stand-in renders as "d", leaves the timeToFirstByte string empty. -/
theorem shortTrace_ttfb_not_forwarded :
    (sampleTrace noHeader "10.0.0.5:54321" 200 "/b").Trace.CallStats.TimeToFirstByte = 1500000 ∧
    sampleLib.durationString 1500000 = "d" ∧
    (shortTrace sampleLib (sampleTrace noHeader "10.0.0.5:54321" 200 "/b")).map
        (fun s => s.CallStats.Ttfb) = some "" := by
  refine ⟨rfl, rfl, ?_⟩
  obtain ⟨s, hs, h, _⟩ :=
    shortTrace_ttfb_empty sampleLib (sampleTrace noHeader "10.0.0.5:54321" 200 "/b")
  rw [hs, Option.map_some', h]

/-- C9: the StatusCode field of the record `shortTrace` returns is the raw
response status code and the StatusMsg field is the reason phrase of the
standard table for it: the phrase of the entry for every code the table lists,
"Not Found" for 404, and the empty string for every code the table does not
list, such as 999, 0 and the negative codes. -/
theorem shortTrace_status {τ : Type} (lib : GoLib τ) (info : ServiceTraceInfo τ) :
    (∃ s, shortTrace lib info = some s ∧
      s.StatusCode = info.Trace.RespInfo.StatusCode ∧
      s.StatusMsg = StatusText info.Trace.RespInfo.StatusCode ∧
      (∀ p ∈ statusText, info.Trace.RespInfo.StatusCode = p.1 → s.StatusMsg = p.2) ∧
      (info.Trace.RespInfo.StatusCode ∉ statusText.map Prod.fst → s.StatusMsg = "")) ∧
    (∀ p ∈ statusText, StatusText p.1 = p.2) ∧
    StatusText 404 = "Not Found" ∧
    (∀ code : Int, code ∉ statusText.map Prod.fst → StatusText code = "") ∧
    StatusText 999 = "" ∧ StatusText 0 = "" ∧ (∀ code : Int, code < 0 → StatusText code = "") := by
  have hnone : ∀ code : Int, code ∉ statusText.map Prod.fst → StatusText code = "" := by
    intro code h
    have : statusText.lookup code = none := by
      rw [List.lookup_eq_none_iff]
      intro p hp
      simp only [bne_iff_ne, ne_eq]
      intro hcode
      exact h (List.mem_map.mpr ⟨p, hp, hcode.symm⟩)
    simp [StatusText, this]
  have htable : ∀ p ∈ statusText, StatusText p.1 = p.2 := by decide
  refine ⟨⟨_, shortTrace_eq lib info, rfl, rfl, ?_, ?_⟩, htable, by decide, hnone, by decide,
    by decide, ?_⟩
  · intro p hp hcode
    show StatusText info.Trace.RespInfo.StatusCode = p.2
    rw [hcode]
    exact htable p hp
  · intro h
    exact hnone _ h
  · intro code hneg
    apply hnone
    simp only [statusText, List.map_cons, List.map_nil, List.mem_cons, List.mem_singleton,
      List.not_mem_nil, or_false]
    omega

/-- C9 at concrete inputs: the code 404 gives the message "Not Found", the codes
200 and 503 give "OK" and "Service Unavailable", and the codes 999, 0 and -1
give the empty message. -/
theorem shortTrace_status_witness :
    (shortTrace sampleLib (sampleTrace noHeader "10.0.0.5" 404 "/b")).map
        (fun s => (s.StatusCode, s.StatusMsg)) = some (404, "Not Found") ∧
    (shortTrace sampleLib (sampleTrace noHeader "10.0.0.5" 200 "/b")).map
        (fun s => (s.StatusCode, s.StatusMsg)) = some (200, "OK") ∧
    (shortTrace sampleLib (sampleTrace noHeader "10.0.0.5" 503 "/b")).map
        (fun s => (s.StatusCode, s.StatusMsg)) = some (503, "Service Unavailable") ∧
    (shortTrace sampleLib (sampleTrace noHeader "10.0.0.5" 999 "/b")).map
        (fun s => (s.StatusCode, s.StatusMsg)) = some (999, "") ∧
    (shortTrace sampleLib (sampleTrace noHeader "10.0.0.5" 0 "/b")).map
        (fun s => (s.StatusCode, s.StatusMsg)) = some (0, "") ∧
    (shortTrace sampleLib (sampleTrace noHeader "10.0.0.5" (-1) "/b")).map
        (fun s => (s.StatusCode, s.StatusMsg)) = some (-1, "") := by
  refine ⟨?_, ?_, ?_, ?_, ?_, ?_⟩
  · obtain ⟨⟨s, hs, h1, h2, _⟩, _, h404, _⟩ :=
      shortTrace_status sampleLib (sampleTrace noHeader "10.0.0.5" 404 "/b")
    rw [hs, Option.map_some', h1, h2]
    exact congrArg (fun m => some ((404 : Int), m)) h404
  · obtain ⟨⟨s, hs, h1, _, h3, _⟩, _⟩ :=
      shortTrace_status sampleLib (sampleTrace noHeader "10.0.0.5" 200 "/b")
    rw [hs, Option.map_some', h1, h3 (200, "OK") (by decide) rfl]
    rfl
  · obtain ⟨⟨s, hs, h1, _, h3, _⟩, _⟩ :=
      shortTrace_status sampleLib (sampleTrace noHeader "10.0.0.5" 503 "/b")
    rw [hs, Option.map_some', h1, h3 (503, "Service Unavailable") (by decide) rfl]
    rfl
  · obtain ⟨⟨s, hs, h1, h2, _⟩, _, _, _, h999, _⟩ :=
      shortTrace_status sampleLib (sampleTrace noHeader "10.0.0.5" 999 "/b")
    rw [hs, Option.map_some', h1, h2]
    exact congrArg (fun m => some ((999 : Int), m)) h999
  · obtain ⟨⟨s, hs, h1, h2, _⟩, _, _, _, _, h0, _⟩ :=
      shortTrace_status sampleLib (sampleTrace noHeader "10.0.0.5" 0 "/b")
    rw [hs, Option.map_some', h1, h2]
    exact congrArg (fun m => some ((0 : Int), m)) h0
  · obtain ⟨⟨s, hs, h1, h2, _⟩, _, _, _, _, _, hneg⟩ :=
      shortTrace_status sampleLib (sampleTrace noHeader "10.0.0.5" (-1) "/b")
    rw [hs, Option.map_some', h1, h2]
    exact congrArg (fun m => some ((-1 : Int), m)) (hneg (-1) (by decide))

/-- C10: `shortTrace` is total: splitting the client address on the colon gives
at least one segment, so that the index 0 is in bounds, and a record is returned
for every raw event. -/
theorem shortTrace_total {τ : Type} (lib : GoLib τ) (info : ServiceTraceInfo τ) :
    0 < (Split info.Trace.ReqInfo.Client ':').length ∧
    (∃ c, (Split info.Trace.ReqInfo.Client ':')[0]? = some c) ∧
    ∃ s, shortTrace lib info = some s := by
  obtain ⟨rest, h⟩ := Split_head info.Trace.ReqInfo.Client ':'
  refine ⟨?_, ?_, _, shortTrace_eq lib info⟩
  · rw [h]
    exact Nat.succ_pos _
  · rw [h]
    exact ⟨_, List.getElem?_cons_zero⟩

/-- C10 at concrete inputs: an empty client address gives the one segment "", an
address of three colons gives four empty segments, and with the Host header
absent or without a value a record is returned for each. -/
theorem shortTrace_total_witness :
    Split "" ':' = [""] ∧ Split ":::" ':' = ["", "", "", ""] ∧
    (shortTrace sampleLib (sampleTrace noHeader "" 200 "/b")).isSome = true ∧
    (shortTrace sampleLib (sampleTrace (hostHeader []) ":::" 200 "/b")).isSome = true := by
  refine ⟨by decide, by decide, ?_, ?_⟩
  · obtain ⟨_, _, s, hs⟩ := shortTrace_total sampleLib (sampleTrace noHeader "" 200 "/b")
    rw [hs]
    rfl
  · obtain ⟨_, _, s, hs⟩ := shortTrace_total sampleLib (sampleTrace (hostHeader []) ":::" 200 "/b")
    rw [hs]
    rfl

/-! ## The relay loop: one iteration -/

section Loop

variable {τ : Type} (lib : GoLib τ) (conn : WSConn)

theorem relayLoop_block (v : Select) (vs : List Select) (st : Relay τ)
    (hv : v.choose = none) :
    relayLoop lib conn (v :: vs) st = relayLoop lib conn vs st := by
  rw [relayLoop]
  simp only [hv]

theorem relayLoop_done (v : Select) (vs : List Select) (st : Relay τ)
    (hv : v.choose = some Case.done) :
    relayLoop lib conn (v :: vs) st = ⟨Outcome.returned none, st⟩ := by
  rw [relayLoop]
  simp only [hv]

theorem relayLoop_closed (v : Select) (vs : List Select) (st : Relay τ)
    (hv : v.choose = some Case.recv) (hsrc : st.src = []) :
    relayLoop lib conn (v :: vs) st = ⟨Outcome.returned none, st⟩ := by
  rw [relayLoop]
  simp only [hv, hsrc]

theorem relayLoop_srcErr (v : Select) (vs : List Select) (st : Relay τ)
    (e : ServiceTraceInfo τ) (rest : List (ServiceTraceInfo τ)) (err : Error)
    (hv : v.choose = some Case.recv) (hsrc : st.src = e :: rest) (he : e.Err = some err) :
    relayLoop lib conn (v :: vs) st =
      ⟨Outcome.returned (some err),
        { src := rest, writes := st.writes,
          logs := st.logs ++ ["error on serviceTrace: " ++ err] }⟩ := by
  rw [relayLoop]
  simp only [hv, hsrc, he]

theorem relayLoop_write (v : Select) (vs : List Select) (st : Relay τ)
    (e : ServiceTraceInfo τ) (rest : List (ServiceTraceInfo τ)) (m : shortTraceMsg) (b : Bytes)
    (hv : v.choose = some Case.recv) (hsrc : st.src = e :: rest) (he : e.Err = none)
    (hm : shortTrace lib e = some m) (hj : lib.jsonMarshal m = Except.ok b)
    (hw : conn st.writes ⟨TextMessage, b⟩ = none) :
    relayLoop lib conn (v :: vs) st =
      relayLoop lib conn vs
        { src := rest, writes := st.writes ++ [⟨TextMessage, b⟩], logs := st.logs } := by
  rw [relayLoop]
  simp only [hv, hsrc, he, hm, hj, hw]

theorem relayLoop_writeErr (v : Select) (vs : List Select) (st : Relay τ)
    (e : ServiceTraceInfo τ) (rest : List (ServiceTraceInfo τ)) (m : shortTraceMsg) (b : Bytes)
    (err : Error)
    (hv : v.choose = some Case.recv) (hsrc : st.src = e :: rest) (he : e.Err = none)
    (hm : shortTrace lib e = some m) (hj : lib.jsonMarshal m = Except.ok b)
    (hw : conn st.writes ⟨TextMessage, b⟩ = some err) :
    relayLoop lib conn (v :: vs) st =
      ⟨Outcome.returned (some err),
        { src := rest, writes := st.writes ++ [⟨TextMessage, b⟩],
          logs := st.logs ++ ["error writeMessage: " ++ err] }⟩ := by
  rw [relayLoop]
  simp only [hv, hsrc, he, hm, hj, hw]

theorem choose_of_not_done (v : Select) (hd : v.doneReady = false) :
    v.choose = if v.srcReady then some Case.recv else none := by
  cases v with
  | mk d r p =>
    simp only at hd
    subst hd
    cases r <;> rfl

/-- With cancellation never ready, a schedule in which the source is ready at
least once brings the loop, in unchanged state, to an iteration that receives. -/
theorem relayLoop_first_recv (views : List Select) (st : Relay τ)
    (hdone : ∀ v ∈ views, v.doneReady = false)
    (hready : 0 < views.countP (fun v => v.srcReady)) :
    ∃ v vs, v.choose = some Case.recv ∧
      relayLoop lib conn views st = relayLoop lib conn (v :: vs) st ∧
      (∀ w ∈ vs, w.doneReady = false) ∧
      vs.countP (fun v => v.srcReady) + 1 = views.countP (fun v => v.srcReady) := by
  induction views with
  | nil => simp at hready
  | cons v vs ih =>
    have hv := choose_of_not_done v (hdone v (List.mem_cons_self _ _))
    have hvs : ∀ w ∈ vs, w.doneReady = false := fun w hw => hdone w (List.mem_cons_of_mem _ hw)
    by_cases hr : v.srcReady = true
    · refine ⟨v, vs, by simp [hv, hr], rfl, hvs, ?_⟩
      simp [List.countP_cons, hr]
    · simp only [Bool.not_eq_true] at hr
      have hready2 : 0 < vs.countP (fun v => v.srcReady) := by
        simpa [List.countP_cons, hr] using hready
      obtain ⟨w, ws, hw, heq, hws, hcnt⟩ := ih hvs hready2
      refine ⟨w, ws, hw, ?_, hws, ?_⟩
      · rw [relayLoop_block lib conn v vs st (by simp [hv, hr]), heq]
      · simpa [List.countP_cons, hr] using hcnt

/-- With cancellation never ready, the loop relays a run of error-free events
whose serializations and writes succeed, provided the source is ready at least
once for each of them. -/
theorem relayLoop_events (wire : ServiceTraceInfo τ → Bytes)
    (evs rest : List (ServiceTraceInfo τ)) (views : List Select) (st : Relay τ)
    (hdone : ∀ v ∈ views, v.doneReady = false)
    (hsrc : st.src = evs ++ rest)
    (herr : ∀ e ∈ evs, e.Err = none)
    (hser : ∀ e ∈ evs, ∃ m, shortTrace lib e = some m ∧ lib.jsonMarshal m = Except.ok (wire e))
    (hw : ∀ pre e post, evs = pre ++ e :: post →
      conn (st.writes ++ pre.map (fun x => Message.mk TextMessage (wire x)))
        ⟨TextMessage, wire e⟩ = none)
    (hready : evs.length ≤ views.countP (fun v => v.srcReady)) :
    ∃ views', (∀ w ∈ views', w.doneReady = false) ∧
      views'.countP (fun v => v.srcReady) + evs.length = views.countP (fun v => v.srcReady) ∧
      relayLoop lib conn views st =
        relayLoop lib conn views'
          { src := rest,
            writes := st.writes ++ evs.map (fun x => Message.mk TextMessage (wire x)),
            logs := st.logs } := by
  induction evs generalizing views st with
  | nil =>
    refine ⟨views, hdone, rfl, ?_⟩
    cases st with
    | mk src writes logs =>
      simp only [List.nil_append] at hsrc
      subst hsrc
      simp
  | cons e es ih =>
    have hpos : 0 < views.countP (fun v => v.srcReady) := by
      simp only [List.length_cons] at hready
      omega
    obtain ⟨v, vs, hv, heq, hvs, hcnt⟩ := relayLoop_first_recv lib conn views st hdone hpos
    obtain ⟨m, hm, hj⟩ := hser e (List.mem_cons_self _ _)
    have hw0 : conn st.writes ⟨TextMessage, wire e⟩ = none := by
      simpa using hw [] e es rfl
    have hstep := relayLoop_write lib conn v vs st e (es ++ rest) m (wire e) hv
      (by simpa using hsrc) (herr e (List.mem_cons_self _ _)) hm hj hw0
    obtain ⟨views', hd', hc', hrun⟩ := ih vs
      { src := es ++ rest, writes := st.writes ++ [⟨TextMessage, wire e⟩], logs := st.logs }
      hvs rfl
      (fun x hx => herr x (List.mem_cons_of_mem _ hx))
      (fun x hx => hser x (List.mem_cons_of_mem _ hx))
      (by
        intro pre x post hes
        have := hw (e :: pre) x post (by simp [hes])
        simpa using this)
      (by
        simp only [List.length_cons] at hready
        omega)
    refine ⟨views', hd', ?_, ?_⟩
    · simp only [List.length_cons]
      omega
    · rw [heq, hstep, hrun]
      simp

theorem sampleWire_spec (e : ServiceTraceInfo Nat) :
    ∃ m, shortTrace sampleLib e = some m ∧ sampleLib.jsonMarshal m = Except.ok (sampleWire e) :=
  ⟨_, shortTrace_eq sampleLib e, rfl⟩

/-! ## The relay loop: claims -/

/-- C1: when the source delivers N error-free events and is then closed,
cancellation never fires, the source is ready often enough, and every
serialization and every write succeeds, `startTraceInfo` returns nil after
exactly N writes, the i-th of which carries the serialization of `shortTrace` of
the i-th event. -/
theorem startTraceInfo_relays_all (client : MinioAdmin τ) (ctx : List Select)
    (wire : ServiceTraceInfo τ → Bytes)
    (herr : ∀ e ∈ client.serviceTrace true false, e.Err = none)
    (hdone : ∀ v ∈ ctx, v.doneReady = false)
    (hready : (client.serviceTrace true false).length < ctx.countP (fun v => v.srcReady))
    (hser : ∀ e ∈ client.serviceTrace true false,
      ∃ m, shortTrace lib e = some m ∧ lib.jsonMarshal m = Except.ok (wire e))
    (hw : ∀ pre e post, client.serviceTrace true false = pre ++ e :: post →
      conn (pre.map (fun x => Message.mk TextMessage (wire x))) ⟨TextMessage, wire e⟩ = none) :
    (startTraceInfo lib ctx conn client).outcome = Outcome.returned none ∧
    (startTraceInfo lib ctx conn client).state.writes.length =
      (client.serviceTrace true false).length ∧
    (startTraceInfo lib ctx conn client).state.writes =
      (client.serviceTrace true false).map (fun e => Message.mk TextMessage (wire e)) ∧
    (∀ i, i < (client.serviceTrace true false).length →
      (startTraceInfo lib ctx conn client).state.writes[i]? =
        ((client.serviceTrace true false)[i]?).map (fun e => Message.mk TextMessage (wire e))) ∧
    (startTraceInfo lib ctx conn client).state.src = [] := by
  obtain ⟨views', hd', hc', hrun⟩ := relayLoop_events lib conn wire
    (client.serviceTrace true false) [] ctx
    { src := client.serviceTrace true false, writes := [], logs := [] }
    hdone (by simp) herr hser (by simpa using hw) (Nat.le_of_lt hready)
  obtain ⟨v, vs, hv, heq, _, _⟩ := relayLoop_first_recv lib conn views'
    { src := [], writes := [] ++ (client.serviceTrace true false).map
        (fun e => Message.mk TextMessage (wire e)), logs := [] }
    hd' (by omega)
  have hres : startTraceInfo lib ctx conn client =
      ⟨Outcome.returned none,
        { src := [], writes := (client.serviceTrace true false).map
            (fun e => Message.mk TextMessage (wire e)), logs := [] }⟩ := by
    unfold startTraceInfo
    simp only []
    rw [hrun, heq, relayLoop_closed lib conn v vs _ hv rfl]
    simp
  rw [hres]
  refine ⟨rfl, by simp, rfl, ?_, rfl⟩
  intro i _
  simp

/-- C2: when the source delivers k error-free events and then an item that bears
an error, cancellation never fires, the source is ready often enough and the k
serializations and writes succeed, `startTraceInfo` returns that error after
exactly k writes, none of them for the item that bears the error, and the items
after it are left in the channel. -/
theorem startTraceInfo_source_error (client : MinioAdmin τ) (ctx : List Select)
    (wire : ServiceTraceInfo τ → Bytes)
    (evs rest : List (ServiceTraceInfo τ)) (bad : ServiceTraceInfo τ) (err : Error)
    (hsrc : client.serviceTrace true false = evs ++ bad :: rest)
    (herr : ∀ e ∈ evs, e.Err = none)
    (hbad : bad.Err = some err)
    (hdone : ∀ v ∈ ctx, v.doneReady = false)
    (hready : evs.length < ctx.countP (fun v => v.srcReady))
    (hser : ∀ e ∈ evs, ∃ m, shortTrace lib e = some m ∧ lib.jsonMarshal m = Except.ok (wire e))
    (hw : ∀ pre e post, evs = pre ++ e :: post →
      conn (pre.map (fun x => Message.mk TextMessage (wire x))) ⟨TextMessage, wire e⟩ = none) :
    (startTraceInfo lib ctx conn client).outcome = Outcome.returned (some err) ∧
    (startTraceInfo lib ctx conn client).state.writes.length = evs.length ∧
    (startTraceInfo lib ctx conn client).state.writes =
      evs.map (fun e => Message.mk TextMessage (wire e)) ∧
    (startTraceInfo lib ctx conn client).state.src = rest := by
  obtain ⟨views', hd', hc', hrun⟩ := relayLoop_events lib conn wire evs (bad :: rest) ctx
    { src := client.serviceTrace true false, writes := [], logs := [] }
    hdone hsrc herr hser (by simpa using hw) (Nat.le_of_lt hready)
  obtain ⟨v, vs, hv, heq, _, _⟩ := relayLoop_first_recv lib conn views'
    { src := bad :: rest, writes := [] ++ evs.map (fun e => Message.mk TextMessage (wire e)),
      logs := [] }
    hd' (by omega)
  have hres : startTraceInfo lib ctx conn client =
      ⟨Outcome.returned (some err),
        { src := rest, writes := evs.map (fun e => Message.mk TextMessage (wire e)),
          logs := ["error on serviceTrace: " ++ err] }⟩ := by
    unfold startTraceInfo
    simp only []
    rw [hrun, heq, relayLoop_srcErr lib conn v vs _ bad rest err hv rfl hbad]
    simp
  rw [hres]
  exact ⟨rfl, by simp, rfl, rfl⟩

/-- C3: when the first failing write is the one for event number i, the events
up to it being error-free and serializable, cancellation never fires and the
source is ready often enough, `startTraceInfo` returns the error that write
reported, has attempted exactly i+1 writes, and the items after event i are left
in the channel. -/
theorem startTraceInfo_write_error (client : MinioAdmin τ) (ctx : List Select)
    (wire : ServiceTraceInfo τ → Bytes)
    (evs rest : List (ServiceTraceInfo τ)) (ei : ServiceTraceInfo τ) (err : Error)
    (hsrc : client.serviceTrace true false = evs ++ ei :: rest)
    (herr : ∀ e ∈ evs ++ [ei], e.Err = none)
    (hdone : ∀ v ∈ ctx, v.doneReady = false)
    (hready : evs.length < ctx.countP (fun v => v.srcReady))
    (hser : ∀ e ∈ evs ++ [ei],
      ∃ m, shortTrace lib e = some m ∧ lib.jsonMarshal m = Except.ok (wire e))
    (hw : ∀ pre e post, evs = pre ++ e :: post →
      conn (pre.map (fun x => Message.mk TextMessage (wire x))) ⟨TextMessage, wire e⟩ = none)
    (hfail : conn (evs.map (fun x => Message.mk TextMessage (wire x)))
      ⟨TextMessage, wire ei⟩ = some err) :
    (startTraceInfo lib ctx conn client).outcome = Outcome.returned (some err) ∧
    (startTraceInfo lib ctx conn client).state.writes.length = evs.length + 1 ∧
    (startTraceInfo lib ctx conn client).state.writes =
      (evs ++ [ei]).map (fun e => Message.mk TextMessage (wire e)) ∧
    (startTraceInfo lib ctx conn client).state.src = rest := by
  obtain ⟨views', hd', hc', hrun⟩ := relayLoop_events lib conn wire evs (ei :: rest) ctx
    { src := client.serviceTrace true false, writes := [], logs := [] }
    hdone hsrc (fun e he => herr e (by simp [he])) (fun e he => hser e (by simp [he]))
    (by simpa using hw) (Nat.le_of_lt hready)
  obtain ⟨v, vs, hv, heq, _, _⟩ := relayLoop_first_recv lib conn views'
    { src := ei :: rest, writes := [] ++ evs.map (fun e => Message.mk TextMessage (wire e)),
      logs := [] }
    hd' (by omega)
  obtain ⟨m, hm, hj⟩ := hser ei (by simp)
  have hres : startTraceInfo lib ctx conn client =
      ⟨Outcome.returned (some err),
        { src := rest, writes := (evs ++ [ei]).map (fun e => Message.mk TextMessage (wire e)),
          logs := ["error writeMessage: " ++ err] }⟩ := by
    unfold startTraceInfo
    simp only []
    rw [hrun, heq, relayLoop_writeErr lib conn v vs _ ei rest m (wire ei) err hv rfl
      (herr ei (by simp)) hm hj (by simpa using hfail)]
    simp
  rw [hres]
  exact ⟨rfl, by simp, rfl, rfl⟩

/-- C4, as the code has it: at an iteration at which cancellation and the next
source item are both ready, the `select` proceeds with the case the run time
picks. When it picks cancellation, the loop returns nil in that iteration
without reading the item and without a write; when it picks the receive, the
iteration runs as one at which the source alone is ready. -/
theorem relayLoop_both_ready (v : Select) (vs : List Select) (st : Relay τ)
    (hd : v.doneReady = true) (hs : v.srcReady = true) :
    (v.pickDone = true → relayLoop lib conn (v :: vs) st = ⟨Outcome.returned none, st⟩) ∧
    (v.pickDone = false →
      relayLoop lib conn (v :: vs) st = relayLoop lib conn (recvOnly :: vs) st) := by
  cases v with
  | mk d r p =>
    simp only at hd hs
    subst hd hs
    constructor
    · intro hp
      simp only at hp
      subst hp
      exact relayLoop_done lib conn _ vs st rfl
    · intro hp
      simp only at hp
      subst hp
      rw [relayLoop, relayLoop]
      rfl

/-- C5: when cancellation is ready at a `select` at which the source is not,
the loop having only waited before, `startTraceInfo` returns nil with no write
made and no item received. -/
theorem startTraceInfo_cancelled_first (client : MinioAdmin τ)
    (waits : List Select) (v : Select) (vs : List Select)
    (hwait : ∀ w ∈ waits, w.doneReady = false ∧ w.srcReady = false)
    (hd : v.doneReady = true) (hs : v.srcReady = false) :
    (startTraceInfo lib (waits ++ v :: vs) conn client).outcome = Outcome.returned none ∧
    (startTraceInfo lib (waits ++ v :: vs) conn client).state.writes = [] ∧
    (startTraceInfo lib (waits ++ v :: vs) conn client).state.src =
      client.serviceTrace true false := by
  have hv : v.choose = some Case.done := by
    cases v with
    | mk d r p =>
      simp only at hd hs
      subst hd hs
      rfl
  have hres : ∀ st : Relay τ,
      relayLoop lib conn (waits ++ v :: vs) st = ⟨Outcome.returned none, st⟩ := by
    intro st
    induction waits with
    | nil => exact relayLoop_done lib conn v vs st hv
    | cons w ws ih =>
      have hw := hwait w (List.mem_cons_self _ _)
      have hc : w.choose = none := by
        rw [choose_of_not_done w hw.1]
        simp [hw.2]
      rw [List.cons_append, relayLoop_block lib conn w _ st hc]
      exact ih (fun x hx => hwait x (List.mem_cons_of_mem _ hx))
  unfold startTraceInfo
  simp only []
  rw [hres]
  exact ⟨rfl, rfl, rfl⟩

end Loop

/-! ## The relay loop at concrete inputs -/

/-- C1 at a concrete input: two events and a closed channel, the source ready at
three of five `select`s, give nil after the two writes, in order. -/
theorem startTraceInfo_relays_all_witness :
    (startTraceInfo sampleLib [idle, recvOnly, recvOnly, idle, recvOnly] okConn
      (sampleClient [ev0, ev1])).outcome = Outcome.returned none ∧
    (startTraceInfo sampleLib [idle, recvOnly, recvOnly, idle, recvOnly] okConn
      (sampleClient [ev0, ev1])).state.writes =
        [⟨TextMessage, "10.0.0.5/a"⟩, ⟨TextMessage, "10.0.0.6/b"⟩] ∧
    (startTraceInfo sampleLib [idle, recvOnly, recvOnly, idle, recvOnly] okConn
      (sampleClient [ev0, ev1])).state.src = [] := by
  have h := startTraceInfo_relays_all sampleLib okConn (sampleClient [ev0, ev1])
    [idle, recvOnly, recvOnly, idle, recvOnly] sampleWire
    (by
      intro e he
      simp only [sampleClient, List.mem_cons, List.mem_singleton, List.not_mem_nil,
        or_false] at he
      rcases he with rfl | rfl <;> rfl)
    (by decide) (by decide) (fun e _ => sampleWire_spec e) (fun _ _ _ _ => rfl)
  exact ⟨h.1, h.2.2.1.trans (by decide), h.2.2.2.2⟩

/-- C2 at a concrete input: one event, then an item bearing "connection lost",
then one more event, give that error after the one write, the last event left in
the channel. -/
theorem startTraceInfo_source_error_witness :
    (startTraceInfo sampleLib [recvOnly, idle, recvOnly, recvOnly] okConn
      (sampleClient [ev0, evErr, ev1])).outcome = Outcome.returned (some "connection lost") ∧
    (startTraceInfo sampleLib [recvOnly, idle, recvOnly, recvOnly] okConn
      (sampleClient [ev0, evErr, ev1])).state.writes = [⟨TextMessage, "10.0.0.5/a"⟩] ∧
    (startTraceInfo sampleLib [recvOnly, idle, recvOnly, recvOnly] okConn
      (sampleClient [ev0, evErr, ev1])).state.src.length = 1 := by
  have h := startTraceInfo_source_error sampleLib okConn (sampleClient [ev0, evErr, ev1])
    [recvOnly, idle, recvOnly, recvOnly] sampleWire [ev0] [ev1] evErr "connection lost" rfl
    (by
      intro e he
      simp only [List.mem_singleton] at he
      subst he
      rfl)
    rfl (by decide) (by decide) (fun e _ => sampleWire_spec e) (fun _ _ _ _ => rfl)
  exact ⟨h.1, h.2.2.1.trans (by decide), by rw [h.2.2.2]; rfl⟩

/-- C3 at a concrete input: on a connection whose write number 1 fails, three
events give the error of that write after two attempted writes, the third event
left in the channel. -/
theorem startTraceInfo_write_error_witness :
    (startTraceInfo sampleLib [recvOnly, recvOnly, recvOnly, recvOnly] (brokenConn 1)
      (sampleClient [ev0, ev1, ev0])).outcome = Outcome.returned (some "broken pipe") ∧
    (startTraceInfo sampleLib [recvOnly, recvOnly, recvOnly, recvOnly] (brokenConn 1)
      (sampleClient [ev0, ev1, ev0])).state.writes =
        [⟨TextMessage, "10.0.0.5/a"⟩, ⟨TextMessage, "10.0.0.6/b"⟩] ∧
    (startTraceInfo sampleLib [recvOnly, recvOnly, recvOnly, recvOnly] (brokenConn 1)
      (sampleClient [ev0, ev1, ev0])).state.src.length = 1 := by
  have h := startTraceInfo_write_error sampleLib (brokenConn 1) (sampleClient [ev0, ev1, ev0])
    [recvOnly, recvOnly, recvOnly, recvOnly] sampleWire [ev0] [ev0] ev1 "broken pipe" rfl
    (by
      intro e he
      simp only [List.singleton_append, List.mem_cons, List.mem_singleton, List.not_mem_nil,
        or_false] at he
      rcases he with rfl | rfl <;> rfl)
    (by decide) (by decide) (fun e _ => sampleWire_spec e)
    (by
      intro pre e post hpre
      cases pre with
      | nil => rfl
      | cons a t => simp at hpre)
    rfl
  exact ⟨h.1, h.2.2.1.trans (by decide), by rw [h.2.2.2]; rfl⟩

/-- C4 refuted at a concrete input: with cancellation and an item both ready and
the run time picking the receive, the loop does not return in that iteration:
it reads the item and writes its message. -/
theorem select_gives_no_priority :
    bothPickRecv.doneReady = true ∧ bothPickRecv.srcReady = true ∧
    (startTraceInfo sampleLib [bothPickRecv] okConn (sampleClient [ev0, ev1])).outcome =
      Outcome.running ∧
    (startTraceInfo sampleLib [bothPickRecv] okConn (sampleClient [ev0, ev1])).state.writes =
      [⟨TextMessage, "10.0.0.5/a"⟩] ∧
    (startTraceInfo sampleLib [bothPickRecv] okConn
      (sampleClient [ev0, ev1])).state.src.length = 1 := by
  refine ⟨rfl, rfl, ?_, ?_, ?_⟩ <;> decide

/-- C4, as the code has it, at concrete inputs: with both ready and the run
time picking cancellation, the loop returns nil with the item unread and no
write made; with both ready and the run time picking the receive, the item is
read and written as at a `select` at which the source alone is ready. -/
theorem relayLoop_both_ready_witness :
    (relayLoop sampleLib okConn [bothPickDone, recvOnly]
      { src := [ev0], writes := [], logs := [] }).outcome = Outcome.returned none ∧
    (relayLoop sampleLib okConn [bothPickDone, recvOnly]
      { src := [ev0], writes := [], logs := [] }).state.writes = [] ∧
    (relayLoop sampleLib okConn [bothPickDone, recvOnly]
      { src := [ev0], writes := [], logs := [] }).state.src.length = 1 ∧
    (relayLoop sampleLib okConn [bothPickRecv]
      { src := [ev0], writes := [], logs := [] }).outcome = Outcome.running ∧
    (relayLoop sampleLib okConn [bothPickRecv]
      { src := [ev0], writes := [], logs := [] }).state.writes =
        [⟨TextMessage, "10.0.0.5/a"⟩] ∧
    (relayLoop sampleLib okConn [bothPickRecv]
      { src := [ev0], writes := [], logs := [] }).state.src.length = 0 := by
  have h := (relayLoop_both_ready sampleLib okConn bothPickDone [recvOnly]
    { src := [ev0], writes := [], logs := [] } rfl rfl).1 rfl
  have h2 := (relayLoop_both_ready sampleLib okConn bothPickRecv []
    { src := [ev0], writes := [], logs := [] } rfl rfl).2 rfl
  rw [h, h2]
  exact ⟨rfl, rfl, rfl, by decide, by decide, by decide⟩

/-- C5 at a concrete input: after two waits, cancellation ready with the source
not ready gives nil, no write, and the one item still in the channel. -/
theorem startTraceInfo_cancelled_first_witness :
    (startTraceInfo sampleLib [idle, idle, doneOnly, recvOnly] okConn
      (sampleClient [ev0])).outcome = Outcome.returned none ∧
    (startTraceInfo sampleLib [idle, idle, doneOnly, recvOnly] okConn
      (sampleClient [ev0])).state.writes = [] ∧
    (startTraceInfo sampleLib [idle, idle, doneOnly, recvOnly] okConn
      (sampleClient [ev0])).state.src.length = 1 := by
  have h := startTraceInfo_cancelled_first sampleLib okConn (sampleClient [ev0])
    [idle, idle] doneOnly [recvOnly] (by decide) rfl rfl
  exact ⟨h.1, h.2.1, congrArg List.length h.2.2⟩

end restapi
